import Mathlib

/-!
Shallow embedding of the LibrePCB board net-topology editing engine:
the undoable command group machinery, the net-point placement algorithm
(`CmdPlaceBoardNetPoint`), the net-segment edit command
(`CmdBoardNetSegmentEdit`), the segment combination command
(`CmdCombineBoardNetSegments`), and the project autosave logic
(`Project::autosaveProject` / `Project::save`).

Machine pointers are replaced by numeric identifiers; the board owns its
elements as lists (mirroring the `QList` containers of the source).
Geometric hit-testing results are inputs, as the engine consumes them from
the scene layer and never computes them itself.
-/

namespace LibrePCB

/-- A 2D board coordinate (`Point`): an immutable value type. -/
structure Point where
  x : Int
  y : Int
deriving DecidableEq, Repr

/-- Anchor of a net point: free-floating, anchored to a footprint pad,
or anchored to a via. -/
inductive Anchor where
  | free
  | pad (padId : Nat)
  | via (viaId : Nat)
deriving DecidableEq, Repr

/-- `BI_NetPoint`: a junction node on one layer within one net segment,
at a specific board position, optionally anchored to a via or a pad. -/
structure NetPoint where
  id : Nat
  pos : Point
  layer : Nat
  segment : Nat
  anchor : Anchor
deriving DecidableEq, Repr

/-- `BI_NetLine`: an edge between two net points on a specific layer,
carrying a trace width, belonging to exactly one net segment. -/
structure NetLine where
  id : Nat
  startPoint : Nat
  endPoint : Nat
  width : Nat
  layer : Nat
  segment : Nat
deriving DecidableEq, Repr

/-- `BI_NetSegment`: a segment of the board net graph, bound to one net signal. -/
structure NetSegment where
  id : Nat
  netsignal : Nat
deriving DecidableEq, Repr

/-- `BI_Via`: a board element spanning layers; `netsignal` is
`BI_Via::getNetSignal()` (`none` when the via is not connected to any net). -/
structure Via where
  id : Nat
  pos : Point
  netsignal : Option Nat
deriving DecidableEq, Repr

/-- `BI_FootprintPad`: a component pad; `netsignal` is
`BI_FootprintPad::getCompSigInstNetSignal()` (`none` when unconnected). -/
structure FootprintPad where
  id : Nat
  pos : Point
  layer : Nat
  netsignal : Option Nat
deriving DecidableEq, Repr

/-- The board net-topology graph: points, lines, segments, vias and pads,
stored in insertion order as in the `QList` containers of the source. -/
structure Board where
  points : List NetPoint
  lines : List NetLine
  segments : List NetSegment
  vias : List Via
  pads : List FootprintPad
deriving DecidableEq, Repr

/-- All element identifiers present on a board. -/
def Board.allIds (b : Board) : List Nat :=
  b.points.map NetPoint.id ++ b.lines.map NetLine.id ++
    b.segments.map NetSegment.id ++ b.vias.map Via.id ++
    b.pads.map FootprintPad.id

/-- A fresh identifier, strictly greater than every identifier on the board
(stands in for the UUIDs the source assigns to newly created elements). -/
def Board.freshId (b : Board) : Nat :=
  b.allIds.foldr max 0 + 1

/-- Geometric hit-testing results at a target position/layer, as returned by
`Board::getNetPointsAtScenePos`, `getViasAtScenePos`, `getPadsAtScenePos`
and `getNetLinesAtScenePos`. The engine consumes these as inputs from the
scene layer. -/
structure Hits where
  netpoints : List NetPoint
  vias : List Via
  pads : List FootprintPad
  netlines : List NetLine
deriving DecidableEq, Repr

/-- `BI_Via::getNetPointOfLayer`: the net point of the board anchored to the
given via on the given layer, if any. -/
def Board.getNetPointOfLayer (b : Board) (viaId : Nat) (layer : Nat) :
    Option NetPoint :=
  b.points.find? (fun p => p.anchor == Anchor.via viaId && p.layer == layer)

/-- The leaf undo commands appended as children by the placement group.
`segmentAdd` is `CmdBoardNetSegmentAdd`, `addElements` is
`CmdBoardNetSegmentAddElements`, `removeElements` is
`CmdBoardNetSegmentRemoveElements`. -/
inductive LeafCmd where
  | segmentAdd (seg : NetSegment)
  | addElements (pts : List NetPoint) (lns : List NetLine)
  | removeElements (lns : List NetLine)
deriving DecidableEq, Repr

/-- Modelled from the spec: the `performExecute` of the three leaf commands
(`CmdBoardNetSegmentAdd`, `CmdBoardNetSegmentAddElements`,
`CmdBoardNetSegmentRemoveElements`), whose implementations are not among the
studied sources — each adds its configured elements to, or removes its
configured lines from, the board model. -/
def LeafCmd.exec : LeafCmd → Board → Board
  | .segmentAdd seg, b => { b with segments := b.segments ++ [seg] }
  | .addElements pts lns, b =>
      { b with points := b.points ++ pts, lines := b.lines ++ lns }
  | .removeElements lns, b =>
      { b with lines := b.lines.filter (fun x => !(lns.any (fun l => l.id == x.id))) }

/-- Modelled from the spec: the `performUndo` of the three leaf commands —
each removes the elements its execution added, or re-adds the lines its
execution removed. -/
def LeafCmd.undo : LeafCmd → Board → Board
  | .segmentAdd seg, b =>
      { b with segments := b.segments.filter (fun s => !(s.id == seg.id)) }
  | .addElements pts lns, b =>
      { b with points := b.points.filter (fun p => !(pts.any (fun q => q.id == p.id))),
               lines := b.lines.filter (fun x => !(lns.any (fun l => l.id == x.id))) }
  | .removeElements lns, b => { b with lines := b.lines ++ lns }

/-- An error signalled by a child command of an `UndoCommandGroup`
(an `Exception` thrown by the child's `performExecute`). -/
inductive CmdError where
  | opError (code : Nat)
deriving DecidableEq, Repr

/-- A child command of an `UndoCommandGroup`: its `performExecute` either
yields the mutated board or fails without mutating (spec: a command either
fully applies or signals failure before mutating), and its `performUndo`
reverses its execution. -/
structure ChildCmd where
  exec : Board → Except CmdError Board
  undo : Board → Board

/-- Modelled from the spec: `UndoCommandGroup::performUndo` — undo the
children in strict reverse order of execution; `done` holds the already
executed children most recent first, so a left fold visits them in exactly
that reverse order. (The implementation of `UndoCommandGroup` is not among
the studied sources.) -/
def rollbackChildren (done : List ChildCmd) (b : Board) : Board :=
  done.foldl (fun s c => c.undo s) b

/-- Modelled from the spec: the child-execution loop of
`UndoCommandGroup::performExecute` — run each child's `performExecute` in
order; if one fails, the scope guard registered at the start of the group
execution fires and undoes the already-succeeded children in strict reverse
order, then the original failure is re-signalled together with the
rolled-back board. On success, the number of executed children is returned. -/
def execChildren : List ChildCmd → List ChildCmd → Board →
    Except (CmdError × Board) (Board × Nat)
  | [], done, b => .ok (b, done.length)
  | c :: rest, done, b =>
      match c.exec b with
      | .ok b2 => execChildren rest (c :: done) b2
      | .error e => .error (e, rollbackChildren done b)

/-- Modelled from the spec: `UndoCommandGroup::performExecute` — execute the
children in order with the rollback scope guard, and report an observable
change exactly when at least one child command was executed. -/
def groupPerformExecute (cs : List ChildCmd) (b : Board) :
    Except (CmdError × Board) (Board × Bool) :=
  match execChildren cs [] b with
  | .ok (b2, n) => .ok (b2, decide (0 < n))
  | .error eb => .error eb

/-- The failures thrown by `CmdPlaceBoardNetPoint` (each a `RuntimeError`
in the source, identified here by its message), plus `fellOffEnd`, which
marks the path in `createNewNetPoint` where the via-handling block is
commented out and control reaches the end of the non-void function without
a return statement (undefined behavior in the C++). -/
inductive PlaceFailure where
  | notImplemented
  | pinNotConnected
  | nothingAtPosition
  | fellOffEnd
deriving DecidableEq, Repr

/-- Intermediate result of the body of `CmdPlaceBoardNetPoint`: the found or
created net point together with the board and the executed child commands
(most recent first), or a failure together with the board and children at
the moment of the throw. -/
inductive PlaceStep where
  | ok (b : Board) (children : List LeafCmd) (np : NetPoint)
  | fail (e : PlaceFailure) (b : Board) (children : List LeafCmd)
deriving DecidableEq, Repr

/-- Outcome of `CmdPlaceBoardNetPoint::performExecute`: the board, the found
or created net point and the returned change flag; or the propagated failure
together with the board after the scope guard rolled back. -/
inductive PlaceOutcome where
  | ok (b : Board) (np : NetPoint) (changed : Bool)
  | fail (e : PlaceFailure) (b : Board)
deriving DecidableEq, Repr

namespace CmdPlaceBoardNetPoint

/-- `CmdPlaceBoardNetPoint::createNewNetSegment` (part_001 lines 94-100):
append and execute a `CmdBoardNetSegmentAdd` child creating a new net
segment bound to the given net signal. -/
def createNewNetSegment (b : Board) (netsignal : Nat) :
    Board × NetSegment × LeafCmd :=
  let seg : NetSegment := ⟨b.freshId, netsignal⟩
  let cmd := LeafCmd.segmentAdd seg
  (cmd.exec b, seg, cmd)

/-- `CmdPlaceBoardNetPoint::createNewNetPointInLine` (part_001 lines
152-175): with exactly one net line under the cursor, add a new unanchored
net point at the position plus two lines from it to the original line's
endpoints (preserving the width), then remove the original line; zero lines
is `NothingAtPosition`, several lines is not implemented. -/
def createNewNetPointInLine (b : Board) (pos : Point) (layer : Nat)
    (hits : Hits) : PlaceStep :=
  match hits.netlines with
  | [] => .fail .nothingAtPosition b []
  | [netline] =>
      let f := b.freshId
      let np : NetPoint := ⟨f, pos, layer, netline.segment, .free⟩
      let l1 : NetLine := ⟨f + 1, np.id, netline.startPoint, netline.width,
                           layer, netline.segment⟩
      let l2 : NetLine := ⟨f + 2, np.id, netline.endPoint, netline.width,
                           layer, netline.segment⟩
      let cmdAdd := LeafCmd.addElements [np] [l1, l2]
      let b1 := cmdAdd.exec b
      let cmdRemove := LeafCmd.removeElements [netline]
      let b2 := cmdRemove.exec b1
      .ok b2 [cmdRemove, cmdAdd] np
  | _ => .fail .notImplemented b []

/-- `CmdPlaceBoardNetPoint::createNewNetPointAtPad` (part_001 lines
129-150): with exactly one pad under the cursor, require its resolved net
signal, create a brand-new net segment bound to it, and add a net point
anchored to the pad inside the new segment; zero pads falls through to the
net-line case, several pads is not implemented. -/
def createNewNetPointAtPad (b : Board) (pos : Point) (layer : Nat)
    (hits : Hits) : PlaceStep :=
  match hits.pads with
  | [] => createNewNetPointInLine b pos layer hits
  | [pad] =>
      match pad.netsignal with
      | none => .fail .pinNotConnected b []
      | some sig =>
          let r := createNewNetSegment b sig
          let np : NetPoint := ⟨b.freshId + 1, pad.pos, layer,
                                r.2.1.id, .pad pad.id⟩
          let cmdAdd := LeafCmd.addElements [np] []
          .ok (cmdAdd.exec r.1) [cmdAdd, r.2.2] np
  | _ => .fail .notImplemented b []

/-- `CmdPlaceBoardNetPoint::createNewNetPoint` (part_001 lines 102-127):
with exactly one via under the cursor, reuse the via's net point of the
requested layer if it exists; otherwise the handling block is commented out
in the source and control falls off the end of the function (`fellOffEnd`).
Zero vias falls through to the pad case, several vias is not implemented. -/
def createNewNetPoint (b : Board) (pos : Point) (layer : Nat)
    (hits : Hits) : PlaceStep :=
  match hits.vias with
  | [] => createNewNetPointAtPad b pos layer hits
  | [v] =>
      match b.getNetPointOfLayer v.id layer with
      | some np => .ok b [] np
      | none => .fail .fellOffEnd b []
  | _ => .fail .notImplemented b []

/-- The body of `CmdPlaceBoardNetPoint::performExecute` (part_001 lines
69-88) without the scope guard: reuse a single existing net point at the
position/layer, create one when none exists, and throw when several exist. -/
def placeBody (b : Board) (pos : Point) (layer : Nat) (hits : Hits) :
    PlaceStep :=
  match hits.netpoints with
  | [] => createNewNetPoint b pos layer hits
  | [np] => .ok b [] np
  | _ => .fail .notImplemented b []

/-- `CmdPlaceBoardNetPoint::performExecute` (part_001 lines 69-88): run the
body under a scope guard that, on failure, undoes the already executed child
commands in reverse order before the failure is re-signalled; on success the
guard is dismissed and the command reports a change exactly when it has at
least one child. -/
def performExecute (b : Board) (pos : Point) (layer : Nat) (hits : Hits) :
    PlaceOutcome :=
  match placeBody b pos layer hits with
  | .ok b2 cs np => .ok b2 np (decide (0 < cs.length))
  | .fail e b2 cs => .fail e (cs.foldl (fun s c => c.undo s) b2)

end CmdPlaceBoardNetPoint

/-- `BI_NetSegment::setNetSignal` on the board model: rebind every segment
with the given identifier to the given net signal. -/
def Board.setNetSignal (b : Board) (segId : Nat) (sig : Nat) : Board :=
  { b with segments := b.segments.map (fun s =>
      if s.id = segId then { s with netsignal := sig } else s) }

/-- `CmdBoardNetSegmentEdit` (part_002): `segId` names the edited segment,
`oldNetSignal` is the signal captured at construction
(`mOldNetSignal = &netsegment.getNetSignal()`), `newNetSignal` the
configured target (initially equal to `oldNetSignal`). -/
structure CmdBoardNetSegmentEdit where
  segId : Nat
  oldNetSignal : Nat
  newNetSignal : Nat
deriving DecidableEq, Repr

namespace CmdBoardNetSegmentEdit

/-- The constructor of `CmdBoardNetSegmentEdit` (part_002 lines 37-41):
capture the segment's current net signal as both the old and the new one. -/
def mk' (b : Board) (segId : Nat) : Option CmdBoardNetSegmentEdit :=
  (b.segments.find? (fun s => s.id == segId)).map
    (fun s => ⟨segId, s.netsignal, s.netsignal⟩)

/-- `CmdBoardNetSegmentEdit::setNetSignal` (part_002 lines 51-55). -/
def setNetSignal (c : CmdBoardNetSegmentEdit) (sig : Nat) :
    CmdBoardNetSegmentEdit :=
  { c with newNetSignal := sig }

/-- `CmdBoardNetSegmentEdit::performExecute` (part_002 lines 61-66): apply
the redo logic and report a change exactly when the new signal differs from
the old one. -/
def performExecute (c : CmdBoardNetSegmentEdit) (b : Board) : Board × Bool :=
  (b.setNetSignal c.segId c.newNetSignal,
   decide (c.newNetSignal ≠ c.oldNetSignal))

/-- `CmdBoardNetSegmentEdit::performUndo` (part_002 lines 68-71): rebind the
segment to the net signal captured at construction. -/
def performUndo (c : CmdBoardNetSegmentEdit) (b : Board) : Board :=
  b.setNetSignal c.segId c.oldNetSignal

end CmdBoardNetSegmentEdit

/-- The failures of `CmdCombineBoardNetSegments`: the net signals of the two
segments differ, or a referenced segment or junction point is absent. -/
inductive CombineFailure where
  | netSignalMismatch
  | invalidInput
deriving DecidableEq, Repr

/-- Outcome of `CmdCombineBoardNetSegments::performExecute`: the merged
board, or a failure together with the board and the number of child
commands that had executed when the failure was signalled. -/
inductive CombineOutcome where
  | ok (b : Board)
  | fail (e : CombineFailure) (b : Board) (childrenExecuted : Nat)
deriving DecidableEq, Repr

/-- Modelled from the spec: `CmdCombineBoardNetSegments::performExecute`
(only the class header is among the studied sources) — the net signals of
the segment to be removed and of the junction point's surviving segment are
compared strictly before the group's first child command executes; on
mismatch the command fails with `NetSignalMismatch` and zero children
executed, otherwise all points and lines of the removed segment are re-owned
into the surviving segment and the now-empty segment is deleted. -/
def combineNetSegments (b : Board) (toRemoveId : Nat) (junctionId : Nat) :
    CombineOutcome :=
  match b.segments.find? (fun s => s.id == toRemoveId),
        b.points.find? (fun p => p.id == junctionId) with
  | some toRemove, some junction =>
      match b.segments.find? (fun s => s.id == junction.segment) with
      | some survivor =>
          if toRemove.netsignal ≠ survivor.netsignal then
            .fail .netSignalMismatch b 0
          else
            .ok { b with
              points := b.points.map (fun p =>
                if p.segment = toRemoveId then { p with segment := survivor.id }
                else p),
              lines := b.lines.map (fun l =>
                if l.segment = toRemoveId then { l with segment := survivor.id }
                else l),
              segments := b.segments.filter (fun s => !(s.id == toRemoveId)) }
      | none => .fail .invalidInput b 0
  | _, _ => .fail .invalidInput b 0

/-- Modelled from the spec: the undo stack history relevant to command
recording (`UndoStack::execCmd`, not among the studied sources) — a command
that reports no observable change is destroyed and the stack is unaffected;
otherwise it is appended at the current position, truncating the redo tail. -/
structure UndoStackState where
  cmdCount : Nat
  position : Nat
deriving DecidableEq, Repr

/-- Modelled from the spec: recording one executed command on the undo
stack, see `UndoStackState`. -/
def UndoStackState.execCmd (st : UndoStackState) (changed : Bool) :
    UndoStackState :=
  if changed then ⟨st.position + 1, st.position + 1⟩ else st

/-- The `Project` state observed by the persistence logic of project.cpp:
`mIsRestored`, `mUndoStack->isClean()`, `mProjectIsModified`,
`mUndoStack->isCommandActive()` and `mIsReadOnly`. -/
structure ProjectState where
  isRestored : Bool
  undoStackClean : Bool
  projectIsModified : Bool
  commandActive : Bool
  readOnly : Bool
deriving DecidableEq, Repr

/-- Result of `Project::save`: the returned success flag and whether any
file write was attempted. -/
structure SaveResult where
  success : Bool
  wrote : Bool
deriving DecidableEq, Repr

/-- `Project::save(bool toOriginal, QStringList& errors)` (project.cpp):
refuse without writing when the project is read-only or while a command is
active; otherwise write the project files, whose combined success is the
external input `filesOk`. -/
def Project.save (p : ProjectState) (filesOk : Bool) : SaveResult :=
  if p.readOnly then ⟨false, false⟩
  else if p.commandActive then ⟨false, false⟩
  else ⟨filesOk, true⟩

/-- Result of `Project::autosaveProject`: the returned flag, whether the
10-second retry timer was started (`QTimer::singleShot`), and whether any
file write was attempted. -/
structure AutosaveResult where
  returned : Bool
  rescheduled : Bool
  wrote : Bool
deriving DecidableEq, Repr

/-- `Project::autosaveProject()` (project.cpp lines 555-580): return false
without saving when there is nothing to save; otherwise, while a command is
active, reschedule the autosave and return false; otherwise delegate to
`Project::save(false, errors)`. -/
def Project.autosaveProject (p : ProjectState) (filesOk : Bool) :
    AutosaveResult :=
  if !p.isRestored && p.undoStackClean && !p.projectIsModified then
    ⟨false, false, false⟩
  else if p.commandActive then ⟨false, true, false⟩
  else
    let r := Project.save p filesOk
    ⟨r.success, false, r.wrote⟩

/-! Helper lemmas. -/

theorem le_foldr_max (l : List Nat) (x : Nat) (hx : x ∈ l) :
    x ≤ l.foldr max 0 := by
  induction l with
  | nil => cases hx
  | cons a t ih =>
      rcases List.mem_cons.mp hx with h | h
      · subst h; exact le_max_left _ _
      · exact le_trans (ih h) (le_max_right _ _)

theorem line_id_lt_freshId (b : Board) (l : NetLine) (hl : l ∈ b.lines) :
    l.id < b.freshId := by
  have hm : l.id ∈ b.allIds := by
    simp only [Board.allIds, List.mem_append, List.mem_map]
    exact Or.inl (Or.inl (Or.inl (Or.inr ⟨l, hl, rfl⟩)))
  exact Nat.lt_succ_of_le (le_foldr_max _ _ hm)

theorem segment_id_lt_freshId (b : Board) (s : NetSegment)
    (hs : s ∈ b.segments) : s.id < b.freshId := by
  have hm : s.id ∈ b.allIds := by
    simp only [Board.allIds, List.mem_append, List.mem_map]
    exact Or.inl (Or.inl (Or.inr ⟨s, hs, rfl⟩))
  exact Nat.lt_succ_of_le (le_foldr_max _ _ hm)

theorem execChildren_error_eq (cs : List ChildCmd) :
    ∀ (done : List ChildCmd) (b b0 : Board),
    (∀ c ∈ cs, ∀ s s2, c.exec s = .ok s2 → c.undo s2 = s) →
    rollbackChildren done b = b0 →
    ∀ e b2, execChildren cs done b = .error (e, b2) →
    b2 = b0 ∧ ∃ c, c ∈ cs ∧ ∃ bmid, c.exec bmid = .error e := by
  induction cs with
  | nil =>
      intro done b b0 hinv hdone e b2 h
      simp [execChildren] at h
  | cons c rest ih =>
      intro done b b0 hinv hdone e b2 h
      rw [execChildren] at h
      cases hc : c.exec b with
      | ok bnext =>
          rw [hc] at h
          have hu : c.undo bnext = b := hinv c (List.mem_cons_self c rest) b bnext hc
          have hdone2 : rollbackChildren (c :: done) bnext = b0 := by
            show List.foldl (fun s d => d.undo s) (c.undo bnext) done = b0
            rw [hu]; exact hdone
          obtain ⟨h1, cm, hcm, hrest⟩ :=
            ih (c :: done) bnext b0
              (fun d hd => hinv d (List.mem_cons_of_mem _ hd)) hdone2 e b2 h
          exact ⟨h1, cm, List.mem_cons_of_mem _ hcm, hrest⟩
      | error e0 =>
          rw [hc] at h
          simp only [Except.error.injEq, Prod.mk.injEq] at h
          obtain ⟨he, hb⟩ := h
          subst he
          exact ⟨hb ▸ hdone, c, List.mem_cons_self c rest, b, hc⟩

/-! Claim theorems. -/

/-- C1: group rollback atomicity. Whenever the execution of a command group
fails because a child command failed after earlier children succeeded, the
scope guard undoes the already-succeeded children in strict reverse order
(`rollbackChildren` folds over them most recent first) and re-signals the
original child failure, so the board after the failed `performExecute` is
structurally identical to the board before the call. -/
theorem group_execute_partial_failure_rolls_back
    (cs : List ChildCmd) (b : Board)
    (hinv : ∀ c ∈ cs, ∀ s s2, c.exec s = .ok s2 → c.undo s2 = s)
    (e : CmdError) (b2 : Board)
    (hfail : groupPerformExecute cs b = .error (e, b2)) :
    b2 = b ∧ ∃ c, c ∈ cs ∧ ∃ bmid, c.exec bmid = .error e := by
  have h : execChildren cs [] b = .error (e, b2) := by
    unfold groupPerformExecute at hfail
    cases h2 : execChildren cs [] b with
    | ok val => rw [h2] at hfail; cases hfail
    | error eb =>
        rw [h2] at hfail
        have hfail2 :
            (Except.error eb : Except (CmdError × Board) (Board × Bool)) =
              Except.error (e, b2) := hfail
        injection hfail2 with h3
        rw [h3]
  exact execChildren_error_eq cs [] b b hinv rfl e b2 h

/-- First witness child: adds the net segment `⟨5, 7⟩`, undone by dropping
the last segment. -/
def cW1 : ChildCmd :=
  ⟨fun s => .ok { s with segments := s.segments ++ [⟨5, 7⟩] },
   fun s => { s with segments := s.segments.dropLast }⟩

/-- Second witness child: always fails. -/
def cW2 : ChildCmd := ⟨fun _ => .error (.opError 3), fun s => s⟩

/-- Witness board for the group rollback theorem. -/
def bW : Board := ⟨[], [], [⟨0, 7⟩], [], []⟩

/-- Witness for C1: in a group whose first child succeeds (it adds a net
segment) and whose second child fails, the failed execution hands back the
original board. -/
theorem group_execute_partial_failure_rolls_back_witness :
    Board.mk [] [] [⟨0, 7⟩] [] [] = bW ∧
      ∃ c, c ∈ [cW1, cW2] ∧ ∃ bmid, c.exec bmid = .error (.opError 3) :=
  group_execute_partial_failure_rolls_back [cW1, cW2] bW
    (by
      intro c hc s s2 h
      simp only [List.mem_cons, List.not_mem_nil, or_false] at hc
      rcases hc with hc | hc
      · subst hc
        simp only [cW1] at h
        injection h with h2
        subst h2
        simp [cW1, List.dropLast_concat]
      · subst hc
        simp [cW2] at h)
    (.opError 3) (Board.mk [] [] [⟨0, 7⟩] [] []) (by rfl)

theorem map_setSignal_roundtrip (segId oldSig newSig : Nat) :
    ∀ (l : List NetSegment),
    (∀ s ∈ l, s.id = segId → s.netsignal = oldSig) →
    ((l.map (fun s => if s.id = segId then { s with netsignal := newSig }
        else s)).map
      (fun s => if s.id = segId then { s with netsignal := oldSig }
        else s)) = l := by
  intro l hl
  induction l with
  | nil => rfl
  | cons a t ih =>
      simp only [List.map_cons, List.cons.injEq]
      refine ⟨?_, ih (fun s hs => hl s (List.mem_cons_of_mem _ hs))⟩
      by_cases ha : a.id = segId
      · have hsig := hl a (List.mem_cons_self a t) ha
        simp only [ha, if_pos]
        rw [← hsig, ← ha]
      · simp [ha]

/-- C2: execute/undo round-trip identity for `CmdBoardNetSegmentEdit`.
A command constructed on a board (capturing the segment's current net
signal as `oldNetSignal`) and configured with any new net signal satisfies:
`performExecute` followed by `performUndo` leaves the board structurally
equal to the board before the execution, and in particular every segment
with the edited identifier again carries the net signal it had at command
construction. -/
theorem cmdBoardNetSegmentEdit_execute_undo_roundtrip
    (b : Board) (segId newSig : Nat) (c0 c : CmdBoardNetSegmentEdit)
    (hmk : CmdBoardNetSegmentEdit.mk' b segId = some c0)
    (hset : c = c0.setNetSignal newSig)
    (hold : ∀ s ∈ b.segments, s.id = segId → s.netsignal = c0.oldNetSignal) :
    c.performUndo (c.performExecute b).1 = b ∧
    ∀ s ∈ (c.performUndo (c.performExecute b).1).segments,
      s.id = segId → s.netsignal = c0.oldNetSignal := by
  have hc0 : c0.segId = segId := by
    unfold CmdBoardNetSegmentEdit.mk' at hmk
    cases hf : b.segments.find? (fun s => s.id == segId) with
    | none => rw [hf] at hmk; cases hmk
    | some s => rw [hf] at hmk; injection hmk with h; rw [← h]
  have hseg : c.segId = segId := by
    rw [hset]; exact hc0
  have holdc : c.oldNetSignal = c0.oldNetSignal := by
    rw [hset]; rfl
  have hmain : c.performUndo (c.performExecute b).1 = b := by
    unfold CmdBoardNetSegmentEdit.performUndo CmdBoardNetSegmentEdit.performExecute
    unfold Board.setNetSignal
    cases b with
    | mk pts lns segs vs ps =>
        simp only [Board.mk.injEq, true_and, and_true]
        rw [hseg, holdc]
        exact map_setSignal_roundtrip segId c0.oldNetSignal c.newNetSignal
          segs hold
  exact ⟨hmain, by rw [hmain]; exact hold⟩

/-- Witness board for the segment edit round trip: one segment with
identifier 1 bound to net signal 4. -/
def bEdit : Board := ⟨[], [], [⟨1, 4⟩], [], []⟩

/-- Witness for C2: editing the only segment of `bEdit` to net signal 9 and
undoing restores the board exactly. -/
theorem cmdBoardNetSegmentEdit_execute_undo_roundtrip_witness :
    CmdBoardNetSegmentEdit.performUndo ⟨1, 4, 9⟩
        (CmdBoardNetSegmentEdit.performExecute ⟨1, 4, 9⟩ bEdit).1 = bEdit ∧
    ∀ s ∈ (CmdBoardNetSegmentEdit.performUndo ⟨1, 4, 9⟩
        (CmdBoardNetSegmentEdit.performExecute ⟨1, 4, 9⟩ bEdit).1).segments,
      s.id = 1 → s.netsignal = 4 :=
  cmdBoardNetSegmentEdit_execute_undo_roundtrip bEdit 1 9 ⟨1, 4, 4⟩ ⟨1, 4, 9⟩
    (by rfl) (by rfl) (by decide)

theorem filter_remove_one_length (L : NetLine) :
    ∀ (l : List NetLine), (l.map NetLine.id).Nodup → L ∈ l →
    (l.filter (fun x => !(L.id == x.id))).length + 1 = l.length := by
  intro l
  induction l with
  | nil => intro _ h; cases h
  | cons a t ih =>
      intro hnd hm
      simp only [List.map_cons, List.nodup_cons] at hnd
      obtain ⟨hna, hnt⟩ := hnd
      rcases List.mem_cons.mp hm with h | h
      · subst h
        have ht : t.filter (fun x => !(L.id == x.id)) = t := by
          apply List.filter_eq_self.mpr
          intro x hx
          have hne : L.id ≠ x.id := by
            intro he
            exact hna (he ▸ List.mem_map_of_mem NetLine.id hx)
          simp [hne]
        simp [List.filter_cons, ht]
      · have hidm : L.id ∈ t.map NetLine.id := List.mem_map_of_mem NetLine.id h
        have hne : (L.id == a.id) = false := by
          apply beq_eq_false_iff_ne.mpr
          intro he
          exact hna (he ▸ hidm)
        have hrec := ih hnt h
        simp only [List.filter_cons, hne, Bool.not_false, if_pos,
          List.length_cons]
        omega

/-- C3: mid-trace split. On a board where hit-testing finds no net point, no
via and no pad but exactly one net line `L` at the target position/layer,
`performExecute` adds one new unanchored net point at the position and two
replacement lines of the original width from that point to the two endpoints
of `L`, removes `L`, reports a change, and leaves every other element
(points other than the new one, segments, vias, pads) unchanged; the total
line count grows by exactly one. -/
theorem placeNetPoint_splits_single_line
    (b : Board) (pos : Point) (layer : Nat) (hits : Hits) (L : NetLine)
    (hp : hits.netpoints = []) (hv : hits.vias = []) (hd : hits.pads = [])
    (hl : hits.netlines = [L]) (hmem : L ∈ b.lines)
    (hnodup : (b.lines.map NetLine.id).Nodup) :
    ∃ b2 : Board,
      CmdPlaceBoardNetPoint.performExecute b pos layer hits =
        .ok b2 ⟨b.freshId, pos, layer, L.segment, .free⟩ true ∧
      b2.points = b.points ++ [⟨b.freshId, pos, layer, L.segment, .free⟩] ∧
      b2.lines = b.lines.filter (fun x => !(L.id == x.id)) ++
        [⟨b.freshId + 1, b.freshId, L.startPoint, L.width, layer, L.segment⟩,
         ⟨b.freshId + 2, b.freshId, L.endPoint, L.width, layer, L.segment⟩] ∧
      b2.lines.length = b.lines.length + 1 ∧
      b2.segments = b.segments ∧ b2.vias = b.vias ∧ b2.pads = b.pads := by
  obtain ⟨hnps, hvias, hpads, hlines⟩ := hits
  simp only at hp hv hd hl
  subst hp hv hd hl
  have hfresh : L.id < b.freshId := line_id_lt_freshId b L hmem
  have hne1 : (L.id == b.freshId + 1) = false := by
    apply beq_eq_false_iff_ne.mpr; omega
  have hne2 : (L.id == b.freshId + 2) = false := by
    apply beq_eq_false_iff_ne.mpr; omega
  have hlen := filter_remove_one_length L b.lines hnodup hmem
  refine ⟨{ b with
      points := b.points ++ [⟨b.freshId, pos, layer, L.segment, .free⟩],
      lines := b.lines.filter (fun x => !(L.id == x.id)) ++
        [⟨b.freshId + 1, b.freshId, L.startPoint, L.width, layer, L.segment⟩,
         ⟨b.freshId + 2, b.freshId, L.endPoint, L.width, layer, L.segment⟩] },
    ?_, rfl, rfl, ?_, rfl, rfl, rfl⟩
  · simp only [CmdPlaceBoardNetPoint.performExecute,
      CmdPlaceBoardNetPoint.placeBody, CmdPlaceBoardNetPoint.createNewNetPoint,
      CmdPlaceBoardNetPoint.createNewNetPointAtPad,
      CmdPlaceBoardNetPoint.createNewNetPointInLine, LeafCmd.exec,
      List.filter_append, List.any_cons, List.any_nil, Bool.or_false,
      List.length_cons, List.length_nil]
    simp only [List.filter_cons, List.filter_nil, hne1, hne2, Bool.not_false,
      if_pos, List.nil_append]
    rfl
  · simp only [List.length_append]
    simp only [List.length_cons, List.length_nil]
    omega

/-- Witness board for the mid-trace split: points 1 and 2 joined by line 3
of width 5 on layer 1, inside segment 10 of net signal 42. -/
def bLine : Board :=
  ⟨[⟨1, ⟨0, 0⟩, 1, 10, .free⟩, ⟨2, ⟨2, 0⟩, 1, 10, .free⟩],
   [⟨3, 1, 2, 5, 1, 10⟩], [⟨10, 42⟩], [], []⟩

/-- Witness line under the cursor on `bLine`. -/
def lnW : NetLine := ⟨3, 1, 2, 5, 1, 10⟩

/-- Witness hit-test results for the mid-trace split on `bLine`. -/
def hitsLine : Hits := ⟨[], [], [], [lnW]⟩

/-- Witness for C3: splitting the single line of `bLine` at position (1,0). -/
theorem placeNetPoint_splits_single_line_witness :
    ∃ b2 : Board,
      CmdPlaceBoardNetPoint.performExecute bLine ⟨1, 0⟩ 1 hitsLine =
        .ok b2 ⟨bLine.freshId, ⟨1, 0⟩, 1, lnW.segment, .free⟩ true ∧
      b2.points = bLine.points ++
        [⟨bLine.freshId, ⟨1, 0⟩, 1, lnW.segment, .free⟩] ∧
      b2.lines = bLine.lines.filter (fun x => !(lnW.id == x.id)) ++
        [⟨bLine.freshId + 1, bLine.freshId, lnW.startPoint, lnW.width, 1,
          lnW.segment⟩,
         ⟨bLine.freshId + 2, bLine.freshId, lnW.endPoint, lnW.width, 1,
          lnW.segment⟩] ∧
      b2.lines.length = bLine.lines.length + 1 ∧
      b2.segments = bLine.segments ∧ b2.vias = bLine.vias ∧
      b2.pads = bLine.pads :=
  placeNetPoint_splits_single_line bLine ⟨1, 0⟩ 1 hitsLine lnW
    rfl rfl rfl rfl (by decide) (by decide)

/-- C4: net-signal-mismatch precondition for combination. For every pair of
net segments bound to different net signals (hence necessarily distinct),
`combineNetSegments` fails with `NetSignalMismatch`, the check happens with
zero child commands executed, and the board handed back is the input board
itself (structural snapshot equality, no rollback needed). -/
theorem combineNetSegments_signal_mismatch_unmutated
    (b : Board) (toRemoveId junctionId : Nat)
    (sR : NetSegment) (jp : NetPoint) (sS : NetSegment)
    (hfR : b.segments.find? (fun s => s.id == toRemoveId) = some sR)
    (hfj : b.points.find? (fun p => p.id == junctionId) = some jp)
    (hfS : b.segments.find? (fun s => s.id == jp.segment) = some sS)
    (hne : sR.netsignal ≠ sS.netsignal) :
    combineNetSegments b toRemoveId junctionId =
      .fail .netSignalMismatch b 0 ∧ sR ≠ sS := by
  constructor
  · simp [combineNetSegments, hfR, hfj, hfS, hne]
  · intro h
    exact hne (by rw [h])

/-- Witness board for the combination mismatch: segment 1 carries net
signal 5, segment 2 carries net signal 6, and point 7 lies in segment 2. -/
def bComb : Board :=
  ⟨[⟨7, ⟨0, 0⟩, 1, 2, .free⟩], [], [⟨1, 5⟩, ⟨2, 6⟩], [], []⟩

/-- Witness for C4: combining segment 1 into the segment of junction point 7
fails with `NetSignalMismatch` and hands back `bComb` itself with zero child
commands executed. -/
theorem combineNetSegments_signal_mismatch_unmutated_witness :
    combineNetSegments bComb 1 7 = .fail .netSignalMismatch bComb 0 ∧
      (⟨1, 5⟩ : NetSegment) ≠ (⟨2, 6⟩ : NetSegment) :=
  combineNetSegments_signal_mismatch_unmutated bComb 1 7 ⟨1, 5⟩
    ⟨7, ⟨0, 0⟩, 1, 2, .free⟩ ⟨2, 6⟩ (by rfl) (by rfl) (by rfl) (by decide)

/-- C5: pad placement. On a board where hit-testing finds no net point and
no via but exactly one footprint pad, whose resolved net signal is `n`, and
where no net point is yet anchored to that pad (so no net segment of signal
`n` touches the pad through a net point), `performExecute` creates exactly
one brand-new net segment bound to `n` (its identifier is fresh: different
from every existing segment's) and one new net point anchored to the pad
inside that segment, returns that point with the change flag set, and
leaves lines, vias and pads unchanged. -/
theorem placeNetPoint_at_pad_creates_segment
    (b : Board) (pos : Point) (layer : Nat) (hits : Hits)
    (pad : FootprintPad) (n : Nat)
    (hp : hits.netpoints = []) (hv : hits.vias = []) (hd : hits.pads = [pad])
    (hsig : pad.netsignal = some n)
    (htouch : ∀ p ∈ b.points, p.anchor ≠ Anchor.pad pad.id) :
    ∃ b2 : Board,
      CmdPlaceBoardNetPoint.performExecute b pos layer hits =
        .ok b2 ⟨b.freshId + 1, pad.pos, layer, b.freshId, .pad pad.id⟩ true ∧
      b2.segments = b.segments ++ [⟨b.freshId, n⟩] ∧
      (∀ s ∈ b.segments, s.id ≠ b.freshId) ∧
      b2.points = b.points ++
        [⟨b.freshId + 1, pad.pos, layer, b.freshId, .pad pad.id⟩] ∧
      b2.lines = b.lines ∧ b2.vias = b.vias ∧ b2.pads = b.pads := by
  obtain ⟨hnps, hvias, hpads, hlines⟩ := hits
  simp only at hp hv hd
  subst hp hv hd
  refine ⟨{ b with
      segments := b.segments ++ [⟨b.freshId, n⟩],
      points := b.points ++
        [⟨b.freshId + 1, pad.pos, layer, b.freshId, .pad pad.id⟩] },
    ?_, rfl, ?_, rfl, rfl, rfl, rfl⟩
  · simp only [CmdPlaceBoardNetPoint.performExecute,
      CmdPlaceBoardNetPoint.placeBody, CmdPlaceBoardNetPoint.createNewNetPoint,
      CmdPlaceBoardNetPoint.createNewNetPointAtPad,
      CmdPlaceBoardNetPoint.createNewNetSegment, LeafCmd.exec, hsig,
      List.length_cons, List.length_nil, List.append_nil]
    rfl
  · intro s hs he
    exact absurd he (Nat.ne_of_lt (segment_id_lt_freshId b s hs))

/-- Witness board for the pad placement: empty topology, one pad with
identifier 4 at the origin on layer 1, resolved to net signal 9. -/
def bPad : Board := ⟨[], [], [], [], [⟨4, ⟨0, 0⟩, 1, some 9⟩]⟩

/-- Witness hit-test results for the pad placement on `bPad`. -/
def hitsPad : Hits := ⟨[], [], [⟨4, ⟨0, 0⟩, 1, some 9⟩], []⟩

/-- Witness for C5: placing at the pad of `bPad` creates one new segment
bound to net signal 9 holding one pad-anchored point. -/
theorem placeNetPoint_at_pad_creates_segment_witness :
    ∃ b2 : Board,
      CmdPlaceBoardNetPoint.performExecute bPad ⟨0, 0⟩ 1 hitsPad =
        .ok b2 ⟨bPad.freshId + 1, ⟨0, 0⟩, 1, bPad.freshId, .pad 4⟩ true ∧
      b2.segments = bPad.segments ++ [⟨bPad.freshId, 9⟩] ∧
      (∀ s ∈ bPad.segments, s.id ≠ bPad.freshId) ∧
      b2.points = bPad.points ++
        [⟨bPad.freshId + 1, ⟨0, 0⟩, 1, bPad.freshId, .pad 4⟩] ∧
      b2.lines = bPad.lines ∧ b2.vias = bPad.vias ∧ b2.pads = bPad.pads :=
  placeNetPoint_at_pad_creates_segment bPad ⟨0, 0⟩ 1 hitsPad
    ⟨4, ⟨0, 0⟩, 1, some 9⟩ 9 rfl rfl rfl rfl (by decide)

/-- Board for the via evaluation: one via with identifier 1 at the origin
not connected to any net, and no net points at all. -/
def bVia : Board := ⟨[], [], [], [⟨1, ⟨0, 0⟩, none⟩], []⟩

/-- Hit-test results on `bVia`: no net point, exactly one via. -/
def hitsVia : Hits := ⟨[], [⟨1, ⟨0, 0⟩, none⟩], [], []⟩

/-- C6: evaluation of the code at the via input. On a board with exactly
one via at the position, no net point at the position/layer, no net point of
the via on the requested layer, and an undetermined via net signal, the
placement does not fail with a no-net-signal error: the via-handling block
of `createNewNetPoint` is commented out in the source, so control reaches
the end of the non-void function without a return statement (the
`fellOffEnd` outcome; undefined behavior in the C++, and in particular not
the `NoNetSignal` failure the specification describes). -/
theorem placeNetPoint_via_branch_falls_off_end :
    CmdPlaceBoardNetPoint.performExecute bVia ⟨0, 0⟩ 1 hitsVia =
      .fail .fellOffEnd bVia ∧
    bVia.getNetPointOfLayer 1 1 = none ∧
    (⟨1, ⟨0, 0⟩, none⟩ : Via).netsignal = none := by decide

/-- Board for the reuse counterexample: two distinct net points at the very
same position and layer inside segment 10. -/
def bTwoPoints : Board :=
  ⟨[⟨1, ⟨0, 0⟩, 1, 10, .free⟩, ⟨2, ⟨0, 0⟩, 1, 10, .free⟩],
   [], [⟨10, 3⟩], [], []⟩

/-- Hit-test results on `bTwoPoints`: both points are at the position. -/
def hitsTwoPoints : Hits :=
  ⟨[⟨1, ⟨0, 0⟩, 1, 10, .free⟩, ⟨2, ⟨0, 0⟩, 1, 10, .free⟩], [], [], []⟩

/-- C7 counterexample: with two existing net points at the exact target
position/layer (one or more, as the claim quantifies), the placement does
not reuse the first found point — it fails with the not-implemented error. -/
theorem placeNetPoint_two_points_not_reused :
    1 ≤ hitsTwoPoints.netpoints.length ∧
    CmdPlaceBoardNetPoint.performExecute bTwoPoints ⟨0, 0⟩ 1 hitsTwoPoints =
      .fail .notImplemented bTwoPoints := by decide

/-- C7 (amended): reuse holds for exactly one occupant. Whenever exactly one
net point occupies the exact target position/layer, `performExecute` reuses
it — it returns that point with an unchanged board and no reported change,
so a second call at the same position/layer returns the very same point
without creating a duplicate; with two or more occupants the placement
fails with the not-implemented error instead of reusing the first. -/
theorem placeNetPoint_single_point_reused
    (b : Board) (pos : Point) (layer : Nat) (hits : Hits) (p : NetPoint) :
    (hits.netpoints = [p] →
      CmdPlaceBoardNetPoint.performExecute b pos layer hits =
        .ok b p false) ∧
    (2 ≤ hits.netpoints.length →
      CmdPlaceBoardNetPoint.performExecute b pos layer hits =
        .fail .notImplemented b) := by
  constructor
  · intro h
    simp [CmdPlaceBoardNetPoint.performExecute,
      CmdPlaceBoardNetPoint.placeBody, h]
  · intro h
    cases hnp : hits.netpoints with
    | nil => rw [hnp] at h; simp at h
    | cons a t =>
        cases t with
        | nil => rw [hnp] at h; simp at h
        | cons c t2 =>
            simp [CmdPlaceBoardNetPoint.performExecute,
              CmdPlaceBoardNetPoint.placeBody, hnp]

/-- Board for the reuse witness: one net point at the origin in segment 10. -/
def bOnePoint : Board := ⟨[⟨1, ⟨0, 0⟩, 1, 10, .free⟩], [], [⟨10, 3⟩], [], []⟩

/-- Hit-test results on `bOnePoint`: exactly that point at the position. -/
def hitsOnePoint : Hits := ⟨[⟨1, ⟨0, 0⟩, 1, 10, .free⟩], [], [], []⟩

/-- Witness for the amended C7: the single point of `bOnePoint` is reused
without any change, and on `bTwoPoints` (two occupants) the placement fails. -/
theorem placeNetPoint_single_point_reused_witness :
    CmdPlaceBoardNetPoint.performExecute bOnePoint ⟨0, 0⟩ 1 hitsOnePoint =
      .ok bOnePoint ⟨1, ⟨0, 0⟩, 1, 10, .free⟩ false ∧
    CmdPlaceBoardNetPoint.performExecute bTwoPoints ⟨0, 0⟩ 1 hitsTwoPoints =
      .fail .notImplemented bTwoPoints :=
  ⟨(placeNetPoint_single_point_reused bOnePoint ⟨0, 0⟩ 1 hitsOnePoint
      ⟨1, ⟨0, 0⟩, 1, 10, .free⟩).1 rfl,
   (placeNetPoint_single_point_reused bTwoPoints ⟨0, 0⟩ 1 hitsTwoPoints
      ⟨1, ⟨0, 0⟩, 1, 10, .free⟩).2 (by decide)⟩

/-- C8: ambiguous-configuration failure. With no net point at the target
position/layer and two or more candidates at one of the priority levels
2 to 4 — several vias, or no via and several pads, or no via, no pad and
several net lines — `performExecute` fails with the not-implemented error
and hands back the input board unmutated. -/
theorem placeNetPoint_ambiguous_fails_unmutated
    (b : Board) (pos : Point) (layer : Nat) (hits : Hits)
    (hp : hits.netpoints = [])
    (hcase : 2 ≤ hits.vias.length ∨
      (hits.vias = [] ∧ 2 ≤ hits.pads.length) ∨
      (hits.vias = [] ∧ hits.pads = [] ∧ 2 ≤ hits.netlines.length)) :
    CmdPlaceBoardNetPoint.performExecute b pos layer hits =
      .fail .notImplemented b := by
  obtain ⟨hnps, hvias, hpads, hlines⟩ := hits
  simp only at hp hcase
  subst hp
  rcases hcase with h | ⟨hv, h⟩ | ⟨hv, hd, h⟩
  · cases hvias with
    | nil => simp at h
    | cons a t =>
        cases t with
        | nil => simp at h
        | cons c t2 =>
            simp [CmdPlaceBoardNetPoint.performExecute,
              CmdPlaceBoardNetPoint.placeBody,
              CmdPlaceBoardNetPoint.createNewNetPoint]
  · subst hv
    cases hpads with
    | nil => simp at h
    | cons a t =>
        cases t with
        | nil => simp at h
        | cons c t2 =>
            simp [CmdPlaceBoardNetPoint.performExecute,
              CmdPlaceBoardNetPoint.placeBody,
              CmdPlaceBoardNetPoint.createNewNetPoint,
              CmdPlaceBoardNetPoint.createNewNetPointAtPad]
  · subst hv hd
    cases hlines with
    | nil => simp at h
    | cons a t =>
        cases t with
        | nil => simp at h
        | cons c t2 =>
            simp [CmdPlaceBoardNetPoint.performExecute,
              CmdPlaceBoardNetPoint.placeBody,
              CmdPlaceBoardNetPoint.createNewNetPoint,
              CmdPlaceBoardNetPoint.createNewNetPointAtPad,
              CmdPlaceBoardNetPoint.createNewNetPointInLine]

/-- Board for the ambiguity witness: two overlapping vias at the origin. -/
def bTwoVias : Board :=
  ⟨[], [], [], [⟨1, ⟨0, 0⟩, some 3⟩, ⟨2, ⟨0, 0⟩, some 3⟩], []⟩

/-- Hit-test results on `bTwoVias`: no net point, both vias at the position. -/
def hitsTwoVias : Hits :=
  ⟨[], [⟨1, ⟨0, 0⟩, some 3⟩, ⟨2, ⟨0, 0⟩, some 3⟩], [], []⟩

/-- Witness for C8: placing at a position with two overlapping vias fails
with the not-implemented error and leaves `bTwoVias` unmutated. -/
theorem placeNetPoint_ambiguous_fails_unmutated_witness :
    CmdPlaceBoardNetPoint.performExecute bTwoVias ⟨0, 0⟩ 1 hitsTwoVias =
      .fail .notImplemented bTwoVias :=
  placeNetPoint_ambiguous_fails_unmutated bTwoVias ⟨0, 0⟩ 1 hitsTwoVias
    rfl (Or.inl (by decide))

/-- Project state with an active command but nothing to save: not restored,
undo stack clean, not modified. -/
def pClean : ProjectState := ⟨false, true, false, true, false⟩

/-- C9 counterexample: with a command active but nothing to save,
`autosaveProject` returns false immediately without starting the 10-second
retry timer — it does not reschedule itself, contrary to the claim that it
reschedules whenever a command is active (the no-changes early return comes
first in the source). -/
theorem autosave_no_reschedule_when_nothing_to_save :
    pClean.commandActive = true ∧
    Project.autosaveProject pClean true =
      { returned := false, rescheduled := false, wrote := false } := by decide

/-- C9 (amended): autosave deferral. Whenever a command is active,
`autosaveProject` writes nothing and returns false, and it reschedules
itself exactly when there is something to save (project restored, undo
stack not clean, or project modified); likewise `Project::save` refuses to
run — it reports failure without writing — while a command is active. -/
theorem autosave_defers_while_command_active
    (p : ProjectState) (filesOk : Bool) (h : p.commandActive = true) :
    (Project.autosaveProject p filesOk).wrote = false ∧
    (Project.autosaveProject p filesOk).returned = false ∧
    ((Project.autosaveProject p filesOk).rescheduled = true ↔
      (p.isRestored || !p.undoStackClean || p.projectIsModified) = true) ∧
    Project.save p filesOk = ⟨false, false⟩ := by
  obtain ⟨ir, cl, mo, ca, ro⟩ := p
  simp only at h
  subst h
  cases ir <;> cases cl <;> cases mo <;> cases ro <;>
    simp [Project.autosaveProject, Project.save]

/-- Project state with an active command and unsaved modifications. -/
def pBusy : ProjectState := ⟨false, false, true, true, false⟩

/-- Witness for the amended C9: with a command active and the project
modified, the autosave writes nothing, returns false and reschedules, and
the save refuses to run. -/
theorem autosave_defers_while_command_active_witness :
    (Project.autosaveProject pBusy true).wrote = false ∧
    (Project.autosaveProject pBusy true).returned = false ∧
    ((Project.autosaveProject pBusy true).rescheduled = true ↔
      (pBusy.isRestored || !pBusy.undoStackClean ||
        pBusy.projectIsModified) = true) ∧
    Project.save pBusy true = ⟨false, false⟩ :=
  autosave_defers_while_command_active pBusy true rfl

theorem placeBody_ok_nil_children
    (b : Board) (pos : Point) (layer : Nat) (hits : Hits)
    (b1 : Board) (np : NetPoint)
    (h : CmdPlaceBoardNetPoint.placeBody b pos layer hits =
      .ok b1 [] np) : b1 = b := by
  obtain ⟨hnps, hvias, hpads, hlines⟩ := hits
  simp only [CmdPlaceBoardNetPoint.placeBody] at h
  cases hnps with
  | nil =>
      simp only [CmdPlaceBoardNetPoint.createNewNetPoint] at h
      cases hvias with
      | nil =>
          simp only [CmdPlaceBoardNetPoint.createNewNetPointAtPad] at h
          cases hpads with
          | nil =>
              simp only [CmdPlaceBoardNetPoint.createNewNetPointInLine] at h
              cases hlines with
              | nil => simp at h
              | cons a t =>
                  cases t with
                  | nil => simp at h
                  | cons c t2 => simp at h
          | cons a t =>
              cases t with
              | nil =>
                  cases hsig : a.netsignal with
                  | none => simp [hsig] at h
                  | some n =>
                      simp [hsig, CmdPlaceBoardNetPoint.createNewNetSegment]
                        at h
              | cons c t2 => simp at h
      | cons a t =>
          cases t with
          | nil =>
              cases hg : b.getNetPointOfLayer a.id layer with
              | some q => simp [hg] at h; exact h.1.symm
              | none => simp [hg] at h
          | cons c t2 => simp at h
  | cons a t =>
      cases t with
      | nil => simp at h; exact h.1.symm
      | cons c t2 => simp at h

/-- C10: implicit no-change reporting of placement. Whenever the body of
`CmdPlaceBoardNetPoint::performExecute` succeeds, the group reports an
observable change exactly when at least one child command was appended
during its execution; when no child was appended the board is untouched and
recording the command on the undo stack leaves the stack unchanged, so the
invocation is never entered into the undo history; in particular, when an
existing net point at the target position/layer is reused, no child command
is created and the group returns false. -/
theorem placeNetPoint_change_iff_children
    (b : Board) (pos : Point) (layer : Nat) (hits : Hits)
    (st : UndoStackState) (b1 : Board) (cs : List LeafCmd) (np : NetPoint)
    (hbody : CmdPlaceBoardNetPoint.placeBody b pos layer hits =
      .ok b1 cs np) :
    CmdPlaceBoardNetPoint.performExecute b pos layer hits =
      .ok b1 np (decide (0 < cs.length)) ∧
    (cs = [] → b1 = b ∧ st.execCmd false = st) ∧
    (∀ p, hits.netpoints = [p] → cs = [] ∧ np = p ∧
      CmdPlaceBoardNetPoint.performExecute b pos layer hits =
        .ok b p false) := by
  refine ⟨?_, ?_, ?_⟩
  · simp [CmdPlaceBoardNetPoint.performExecute, hbody]
  · intro hcs
    subst hcs
    exact ⟨placeBody_ok_nil_children b pos layer hits b1 np hbody,
      by simp [UndoStackState.execCmd]⟩
  · intro p hp
    have hb : CmdPlaceBoardNetPoint.placeBody b pos layer hits =
        .ok b [] p := by
      simp [CmdPlaceBoardNetPoint.placeBody, hp]
    rw [hb] at hbody
    injection hbody with h1 h2 h3
    refine ⟨h2.symm, h3.symm, ?_⟩
    simp [CmdPlaceBoardNetPoint.performExecute, hb]

/-- Witness for C10: reusing the single point of `bOnePoint` appends no
child command and reports no change. -/
theorem placeNetPoint_change_iff_children_witness :
    CmdPlaceBoardNetPoint.performExecute bOnePoint ⟨0, 0⟩ 1 hitsOnePoint =
      .ok bOnePoint ⟨1, ⟨0, 0⟩, 1, 10, .free⟩ false :=
  ((placeNetPoint_change_iff_children bOnePoint ⟨0, 0⟩ 1 hitsOnePoint
      ⟨0, 0⟩ bOnePoint [] ⟨1, ⟨0, 0⟩, 1, 10, .free⟩ rfl).2.2
    ⟨1, ⟨0, 0⟩, 1, 10, .free⟩ rfl).2.2

end LibrePCB
